import Mathlib

/-!
Verification of the Quickcart storefront's cart state model, product search,
checkout flow and REST order/user persistence, shallowly embedded from
`src/src/App.tsx` and `src/server.ts`.

Numbers: product prices are embedded as rationals (JS numbers used as currency
values), quantities and ids as integers/naturals matching the source's use.
-/

set_option maxHeartbeats 1000000

namespace Quickcart

/-- `interface Product` from App.tsx: id, name, category, price, image, stock,
description. -/
structure Product where
  id : Nat
  name : String
  category : String
  price : Rat
  image : String
  stock : Nat
  description : String
deriving DecidableEq, Repr

/-- `interface CartItem extends Product { quantity: number }` from App.tsx. -/
structure CartItem extends Product where
  quantity : Int
deriving DecidableEq, Repr

/-- `interface UserData` from App.tsx: id, email, name. -/
structure UserData where
  id : Nat
  email : String
  name : String
deriving DecidableEq, Repr

/-- `addToCart` from App.tsx (lines 1259-1269): if a cart item with the
product's id exists, map over the cart incrementing the quantity of matching
items (spreading the existing item, so all other fields are kept); otherwise
append the product with quantity 1. -/
def addToCart (cart : List CartItem) (product : Product) : List CartItem :=
  match cart.find? (fun item => item.id == product.id) with
  | some _ =>
      cart.map (fun item =>
        if item.id == product.id then { item with quantity := item.quantity + 1 } else item)
  | none => cart ++ [{ product with quantity := 1 }]

/-- `removeFromCart` from App.tsx (lines 1271-1281): if a matching item exists
with quantity > 1, decrement matching items; otherwise filter out all items
with that product id. -/
def removeFromCart (cart : List CartItem) (productId : Nat) : List CartItem :=
  match cart.find? (fun item => item.id == productId) with
  | some existing =>
      if existing.quantity > 1 then
        cart.map (fun item =>
          if item.id == productId then { item with quantity := item.quantity - 1 } else item)
      else
        cart.filter (fun item => item.id != productId)
  | none => cart.filter (fun item => item.id != productId)

/-- `cartTotal` from App.tsx (line 1283): `cart.reduce((sum, item) => sum +
item.price * item.quantity, 0)`. -/
def cartTotal (cart : List CartItem) : Rat :=
  cart.foldl (fun sum item => sum + item.price * (item.quantity : Rat)) 0

/-- `cartCount` from App.tsx (line 1284): `cart.reduce((sum, item) => sum +
item.quantity, 0)`. -/
def cartCount (cart : List CartItem) : Int :=
  cart.foldl (fun sum item => sum + item.quantity) 0

/-- One user action on the cart: an add-to-cart click or a remove click. -/
inductive CartOp where
  | add (p : Product)
  | remove (productId : Nat)
deriving Repr

/-- Apply a single cart operation. -/
def applyOp (cart : List CartItem) : CartOp → List CartItem
  | .add p => addToCart cart p
  | .remove productId => removeFromCart cart productId

/-- Apply a sequence of cart operations starting from the empty cart
(`useState<CartItem[]>([])`). -/
def applyOps (ops : List CartOp) : List CartItem :=
  ops.foldl applyOp []

/-- The cart invariant from the spec: at most one cart line per product id and
every line has quantity ≥ 1. -/
def CartInv (cart : List CartItem) : Prop :=
  (cart.map (fun item => item.id)).Nodup ∧ ∀ item ∈ cart, 1 ≤ item.quantity

instance (cart : List CartItem) : Decidable (CartInv cart) := by
  unfold CartInv; infer_instance

/-! Helper lemmas about the cart operations. -/

theorem map_quantity_update_ids (cart : List CartItem) (x : Nat) (g : CartItem → Int) :
    ((cart.map (fun item =>
        if item.id == x then { item with quantity := g item } else item)).map
      fun item => item.id) = cart.map fun item => item.id := by
  rw [List.map_map]
  apply List.map_congr_left
  intro a _
  by_cases h : a.id = x <;> simp [h, Function.comp]

theorem find?_id_eq_some {cart : List CartItem} {x : Nat} {e : CartItem}
    (h : cart.find? (fun item => item.id == x) = some e) : e ∈ cart ∧ e.id = x := by
  refine ⟨List.mem_of_find?_eq_some h, ?_⟩
  have := List.find?_some h
  simpa using this

theorem find?_id_eq_none {cart : List CartItem} {x : Nat}
    (h : ∀ item ∈ cart, item.id ≠ x) : cart.find? (fun item => item.id == x) = none := by
  rw [List.find?_eq_none]
  intro a ha
  simpa using h a ha

theorem addToCart_found {cart : List CartItem} {p : Product} {e : CartItem}
    (hfind : cart.find? (fun item => item.id == p.id) = some e) :
    addToCart cart p = cart.map (fun item =>
      if item.id == p.id then { item with quantity := item.quantity + 1 } else item) := by
  unfold addToCart
  rw [hfind]

theorem addToCart_not_found {cart : List CartItem} {p : Product}
    (hfind : cart.find? (fun item => item.id == p.id) = none) :
    addToCart cart p = cart ++ [{ p with quantity := 1 }] := by
  unfold addToCart
  rw [hfind]

theorem removeFromCart_found {cart : List CartItem} {x : Nat} {e : CartItem}
    (hfind : cart.find? (fun item => item.id == x) = some e) :
    removeFromCart cart x =
      if e.quantity > 1 then
        cart.map (fun item =>
          if item.id == x then { item with quantity := item.quantity - 1 } else item)
      else cart.filter (fun item => item.id != x) := by
  unfold removeFromCart
  rw [hfind]

theorem removeFromCart_not_found {cart : List CartItem} {x : Nat}
    (hfind : cart.find? (fun item => item.id == x) = none) :
    removeFromCart cart x = cart.filter (fun item => item.id != x) := by
  unfold removeFromCart
  rw [hfind]

/-- `addToCart` preserves the cart invariant. -/
theorem addToCart_inv {cart : List CartItem} (p : Product) (h : CartInv cart) :
    CartInv (addToCart cart p) := by
  obtain ⟨hids, hqty⟩ := h
  unfold addToCart
  cases hfind : cart.find? (fun item => item.id == p.id) with
  | some e =>
      constructor
      · rw [map_quantity_update_ids cart p.id (fun item => item.quantity + 1)]
        exact hids
      · intro item hitem
        obtain ⟨a, ha, rfl⟩ := List.mem_map.mp hitem
        by_cases hid : a.id = p.id
        · simp only [hid, beq_self_eq_true, if_true]
          have := hqty a ha
          omega
        · simp only [beq_eq_false_iff_ne, ne_eq, hid, not_false_eq_true, if_neg,
            beq_iff_eq]
          exact hqty a ha
  | none =>
      have hnm : ∀ item ∈ cart, item.id ≠ p.id := by
        intro a ha
        have := List.find?_eq_none.mp hfind a ha
        simpa using this
      constructor
      · rw [List.map_append]
        rw [List.nodup_append]
        refine ⟨hids, List.nodup_singleton _, ?_⟩
        intro y hy
        obtain ⟨a, ha, rfl⟩ := List.mem_map.mp hy
        simp only [List.map_cons, List.map_nil, List.mem_singleton]
        exact hnm a ha
      · intro item hitem
        rcases List.mem_append.mp hitem with hmem | hmem
        · exact hqty item hmem
        · simp only [List.mem_singleton] at hmem
          subst hmem
          norm_num

/-- `removeFromCart` preserves the cart invariant. -/
theorem removeFromCart_inv {cart : List CartItem} (x : Nat) (h : CartInv cart) :
    CartInv (removeFromCart cart x) := by
  obtain ⟨hids, hqty⟩ := h
  have hfil : CartInv (cart.filter (fun item => item.id != x)) := by
    constructor
    · exact List.Nodup.sublist (List.Sublist.map _ (List.filter_sublist cart)) hids
    · intro item hitem
      exact hqty item (List.mem_of_mem_filter hitem)
  unfold removeFromCart
  cases hfind : cart.find? (fun item => item.id == x) with
  | some e =>
      obtain ⟨hmem, hid⟩ := find?_id_eq_some hfind
      by_cases hq : e.quantity > 1
      · simp only [hq, if_true]
        constructor
        · rw [map_quantity_update_ids cart x (fun item => item.quantity - 1)]
          exact hids
        · intro item hitem
          obtain ⟨a, ha, rfl⟩ := List.mem_map.mp hitem
          by_cases haid : a.id = x
          · have hae : a = e := List.inj_on_of_nodup_map hids ha hmem (by rw [haid, hid])
            simp only [haid, beq_self_eq_true, if_true]
            subst hae
            omega
          · simp only [beq_eq_false_iff_ne, ne_eq, haid, not_false_eq_true, if_neg,
              beq_iff_eq]
            exact hqty a ha
      · simp only [hq, if_false]
        exact hfil
  | none => exact hfil

/-- Applying any operation preserves the cart invariant. -/
theorem applyOp_inv {cart : List CartItem} (op : CartOp) (h : CartInv cart) :
    CartInv (applyOp cart op) := by
  cases op with
  | add p => exact addToCart_inv p h
  | remove x => exact removeFromCart_inv x h

theorem foldl_applyOp_inv (ops : List CartOp) :
    ∀ cart : List CartItem, CartInv cart → CartInv (ops.foldl applyOp cart) := by
  induction ops with
  | nil => intro cart h; exact h
  | cons op rest ih =>
      intro cart h
      exact ih (applyOp cart op) (applyOp_inv op h)

/-- C1: every sequence of addLine/removeLine operations from the empty cart
yields a cart with at most one line per product id and every quantity ≥ 1. -/
theorem cart_invariant_all_sequences (ops : List CartOp) : CartInv (applyOps ops) := by
  unfold applyOps
  exact foldl_applyOp_inv ops [] ⟨List.nodup_nil, by intro item h; cases h⟩

/-! Concrete catalog rows, from the seed data in server.ts. -/

/-- Seed product "Amul Gold Milk" from server.ts (price 33, category Dairy). -/
def milk : Product :=
  { id := 1, name := "Amul Gold Milk", category := "Dairy", price := 33,
    image := "https://picsum.photos/seed/milk/400/400", stock := 100,
    description := "Fresh full cream milk" }

/-- Seed product "Harvest Gold Bread" from server.ts (price 45, category Bakery). -/
def bread : Product :=
  { id := 2, name := "Harvest Gold Bread", category := "Bakery", price := 45,
    image := "https://picsum.photos/seed/bread/400/400", stock := 50,
    description := "Whole wheat brown bread" }

/-! C2: totals. -/

theorem foldl_add_eq_sum {α : Type} (f : α → Rat) (l : List α) :
    ∀ s : Rat, l.foldl (fun sum item => sum + f item) s = s + (l.map f).sum := by
  induction l with
  | nil => intro s; simp
  | cons a t ih =>
      intro s
      simp only [List.foldl_cons, List.map_cons, List.sum_cons]
      rw [ih]
      ring

theorem foldl_add_eq_sum_int {α : Type} (f : α → Int) (l : List α) :
    ∀ s : Int, l.foldl (fun sum item => sum + f item) s = s + (l.map f).sum := by
  induction l with
  | nil => intro s; simp
  | cons a t ih =>
      intro s
      simp only [List.foldl_cons, List.map_cons, List.sum_cons]
      rw [ih]
      ring

theorem cartTotal_eq_sum (cart : List CartItem) :
    cartTotal cart = (cart.map (fun item => item.price * (item.quantity : Rat))).sum := by
  unfold cartTotal
  rw [foldl_add_eq_sum (fun item => item.price * (item.quantity : Rat)) cart 0]
  ring

theorem cartCount_eq_sum (cart : List CartItem) :
    cartCount cart = (cart.map (fun item => item.quantity)).sum := by
  unfold cartCount
  rw [foldl_add_eq_sum_int (fun item => item.quantity) cart 0]
  ring

/-- C2: `cartTotal` is the sum of price × quantity over the cart lines and is
non-negative (prices are catalog currency amounts ≥ 0 and quantities are
non-negative), `cartCount` is the sum of the quantities, and both are 0 on the
empty cart. -/
theorem cartTotal_cartCount_spec (cart : List CartItem)
    (h : ∀ item ∈ cart, 0 ≤ item.price ∧ 0 ≤ item.quantity) :
    cartTotal cart = (cart.map (fun item => item.price * (item.quantity : Rat))).sum ∧
    0 ≤ cartTotal cart ∧
    cartCount cart = (cart.map (fun item => item.quantity)).sum ∧
    cartTotal [] = 0 ∧ cartCount [] = 0 := by
  refine ⟨cartTotal_eq_sum cart, ?_, cartCount_eq_sum cart, rfl, rfl⟩
  rw [cartTotal_eq_sum cart]
  apply List.sum_nonneg
  intro x hx
  obtain ⟨a, ha, rfl⟩ := List.mem_map.mp hx
  obtain ⟨hp, hq⟩ := h a ha
  have hq2 : (0 : Rat) ≤ (a.quantity : Rat) := by exact_mod_cast hq
  exact mul_nonneg hp hq2

/-- Witness for C2 at the one-line cart holding the milk seed product. -/
theorem cartTotal_cartCount_spec_witness :
    (∀ item ∈ [({ milk with quantity := 1 } : CartItem)],
        0 ≤ item.price ∧ 0 ≤ item.quantity) ∧
    (cartTotal [({ milk with quantity := 1 } : CartItem)] =
        ([({ milk with quantity := 1 } : CartItem)].map
          (fun item => item.price * (item.quantity : Rat))).sum ∧
      0 ≤ cartTotal [({ milk with quantity := 1 } : CartItem)] ∧
      cartCount [({ milk with quantity := 1 } : CartItem)] =
        ([({ milk with quantity := 1 } : CartItem)].map (fun item => item.quantity)).sum ∧
      cartTotal [] = 0 ∧ cartCount [] = 0) :=
  ⟨by decide, cartTotal_cartCount_spec [{ milk with quantity := 1 }] (by decide)⟩

/-! C7 and C8: algebraic properties of add/remove. -/

/-- C8: removing a product id with no matching cart line leaves the cart
unchanged. -/
theorem removeFromCart_absent (cart : List CartItem) (x : Nat)
    (h : ∀ item ∈ cart, item.id ≠ x) : removeFromCart cart x = cart := by
  unfold removeFromCart
  rw [find?_id_eq_none h]
  rw [List.filter_eq_self]
  intro a ha
  simpa using h a ha

/-- Witness for C8: removing absent id 7 from the one-line milk cart. -/
theorem removeFromCart_absent_witness :
    (∀ item ∈ [({ milk with quantity := 2 } : CartItem)], item.id ≠ 7) ∧
    removeFromCart [({ milk with quantity := 2 } : CartItem)] 7 =
      [({ milk with quantity := 2 } : CartItem)] :=
  ⟨by decide, removeFromCart_absent [{ milk with quantity := 2 }] 7 (by decide)⟩

/-- C7: adding a product and then removing its id restores the original cart. -/
theorem add_then_remove_round_trip (cart : List CartItem) (p : Product)
    (h : CartInv cart) : removeFromCart (addToCart cart p) p.id = cart := by
  obtain ⟨hids, hqty⟩ := h
  cases hfind : cart.find? (fun item => item.id == p.id) with
  | some e =>
      obtain ⟨hmem, hid⟩ := find?_id_eq_some hfind
      rw [addToCart_found hfind]
      have hpred : ((fun item : CartItem => item.id == p.id) ∘ fun item : CartItem =>
          if item.id == p.id then { item with quantity := item.quantity + 1 } else item)
          = fun item : CartItem => item.id == p.id := by
        funext a
        by_cases ha : a.id = p.id <;> simp [ha, Function.comp]
      have hfind2 : (cart.map (fun item =>
          if item.id == p.id then { item with quantity := item.quantity + 1 } else item)).find?
            (fun item => item.id == p.id) = some { e with quantity := e.quantity + 1 } := by
        rw [List.find?_map, hpred, hfind, Option.map_some']
        simp [hid]
      rw [removeFromCart_found hfind2]
      have hq : ({ e with quantity := e.quantity + 1 } : CartItem).quantity > 1 := by
        have := hqty e hmem
        simp only [gt_iff_lt]
        omega
      rw [if_pos hq]
      rw [List.map_map]
      have : cart.map ((fun item : CartItem =>
          if item.id == p.id then { item with quantity := item.quantity - 1 } else item) ∘
          fun item : CartItem =>
          if item.id == p.id then { item with quantity := item.quantity + 1 } else item) =
          cart.map id := by
        apply List.map_congr_left
        intro a _
        by_cases ha : a.id = p.id <;> simp [ha, Function.comp]
      rw [this, List.map_id]
  | none =>
      have hnm : ∀ item ∈ cart, item.id ≠ p.id := by
        intro a ha
        have := List.find?_eq_none.mp hfind a ha
        simpa using this
      rw [addToCart_not_found hfind]
      have hfind2 : ((cart ++ [({ p with quantity := 1 } : CartItem)]).find?
          (fun item => item.id == p.id)) = some { p with quantity := 1 } := by
        rw [List.find?_append, hfind]
        rw [List.find?_cons_of_pos _ (by simp)]
        rfl
      rw [removeFromCart_found hfind2]
      rw [if_neg (by norm_num)]
      rw [List.filter_append]
      have h1 : cart.filter (fun item => item.id != p.id) = cart := by
        rw [List.filter_eq_self]
        intro a ha
        simpa using hnm a ha
      simp [h1]

/-- Witness for C7: add bread to the one-line milk cart, remove it again. -/
theorem add_then_remove_round_trip_witness :
    CartInv [({ milk with quantity := 2 } : CartItem)] ∧
    removeFromCart (addToCart [({ milk with quantity := 2 } : CartItem)] bread) bread.id =
      [({ milk with quantity := 2 } : CartItem)] :=
  ⟨by decide, add_then_remove_round_trip [{ milk with quantity := 2 }] bread (by decide)⟩

/-! C10: frame property of addToCart on an already-present product id. -/

/-- C10: when the product id is already in the cart, `addToCart` only bumps the
matching line's quantity: every line keeps its captured product fields (in
particular the unit price recorded at the first add, regardless of the fields
carried by the product argument), lines with other ids are wholly unchanged,
and the cart keeps its length. -/
theorem addToCart_frame (cart : List CartItem) (p : Product)
    (h : ∃ e ∈ cart, e.id = p.id) :
    (addToCart cart p).length = cart.length ∧
    (∀ i : Nat, ((addToCart cart p)[i]?).map (fun item => item.toProduct) =
      (cart[i]?).map (fun item => item.toProduct)) ∧
    (∀ i : Nat, ∀ a : CartItem, cart[i]? = some a → a.id ≠ p.id →
      (addToCart cart p)[i]? = some a) ∧
    (∀ i : Nat, ∀ a : CartItem, cart[i]? = some a → a.id = p.id →
      (addToCart cart p)[i]? = some { a with quantity := a.quantity + 1 }) := by
  obtain ⟨e, hmem, hid⟩ := h
  have hfind : (cart.find? (fun item => item.id == p.id)).isSome := by
    cases hf : cart.find? (fun item => item.id == p.id) with
    | some x => rfl
    | none =>
        have := List.find?_eq_none.mp hf e hmem
        simp [hid] at this
  obtain ⟨e2, hf2⟩ := Option.isSome_iff_exists.mp hfind
  rw [addToCart_found hf2]
  refine ⟨List.length_map _ _, ?_, ?_, ?_⟩
  · intro i
    rw [List.getElem?_map]
    cases hi : cart[i]? with
    | none => rfl
    | some a =>
        simp only [Option.map_some']
        by_cases ha : a.id = p.id <;> simp [ha]
  · intro i a hi ha
    rw [List.getElem?_map, hi, Option.map_some']
    simp [ha]
  · intro i a hi ha
    rw [List.getElem?_map, hi, Option.map_some']
    simp [ha]

/-- Witness for C10: adding milk (with a tampered price of 999) to a cart that
already holds milk at the captured price 33 keeps price 33 on the line. -/
theorem addToCart_frame_witness :
    (∃ e ∈ [({ milk with quantity := 2 } : CartItem),
        ({ bread with quantity := 1 } : CartItem)],
      e.id = ({ milk with price := 999 } : Product).id) ∧
    ((addToCart [({ milk with quantity := 2 } : CartItem),
        ({ bread with quantity := 1 } : CartItem)] { milk with price := 999 }).length =
      ([({ milk with quantity := 2 } : CartItem),
        ({ bread with quantity := 1 } : CartItem)] : List CartItem).length ∧
    (∀ i : Nat, ((addToCart [({ milk with quantity := 2 } : CartItem),
        ({ bread with quantity := 1 } : CartItem)] { milk with price := 999 })[i]?).map
          (fun item => item.toProduct) =
      (([({ milk with quantity := 2 } : CartItem),
        ({ bread with quantity := 1 } : CartItem)] : List CartItem)[i]?).map
          (fun item => item.toProduct)) ∧
    (∀ i : Nat, ∀ a : CartItem,
      ([({ milk with quantity := 2 } : CartItem),
        ({ bread with quantity := 1 } : CartItem)] : List CartItem)[i]? = some a →
      a.id ≠ ({ milk with price := 999 } : Product).id →
      (addToCart [({ milk with quantity := 2 } : CartItem),
        ({ bread with quantity := 1 } : CartItem)] { milk with price := 999 })[i]? = some a) ∧
    (∀ i : Nat, ∀ a : CartItem,
      ([({ milk with quantity := 2 } : CartItem),
        ({ bread with quantity := 1 } : CartItem)] : List CartItem)[i]? = some a →
      a.id = ({ milk with price := 999 } : Product).id →
      (addToCart [({ milk with quantity := 2 } : CartItem),
        ({ bread with quantity := 1 } : CartItem)] { milk with price := 999 })[i]? =
        some { a with quantity := a.quantity + 1 })) :=
  ⟨⟨{ milk with quantity := 2 }, by simp [milk]⟩,
   addToCart_frame [{ milk with quantity := 2 }, { bread with quantity := 1 }]
     { milk with price := 999 } ⟨{ milk with quantity := 2 }, by simp [milk]⟩⟩

/-! C3 and C4: the checkout flow (App.tsx handlePlaceOrder, lines 897-924). -/

/-- The JSON body POSTed to /api/orders by handlePlaceOrder (lines 909-913). -/
structure OrderRequestBody where
  userId : Nat
  items : List CartItem
  total : Rat
deriving DecidableEq, Repr

/-- The request body built at checkout: `{ userId: user.id, items: cart,
total: cartTotal + 2 }` (the 2 is the fixed handling charge; the delivery
charge line in the bill is FREE and contributes nothing). -/
def placeOrderRequest (user : UserData) (cart : List CartItem) : OrderRequestBody :=
  { userId := user.id, items := cart, total := cartTotal cart + 2 }

/-- C3: for a non-empty cart, the checkout snapshot carries grand total
`cartTotal + 2`, i.e. the item-wise sum of price × quantity plus the fixed
handling fee of 2 and nothing else. -/
theorem placeOrderRequest_total (user : UserData) (cart : List CartItem)
    (h : cart ≠ []) :
    (placeOrderRequest user cart).total = cartTotal cart + 2 ∧
    (placeOrderRequest user cart).total =
      (cart.map (fun item => item.price * (item.quantity : Rat))).sum + 2 := by
  refine ⟨rfl, ?_⟩
  show cartTotal cart + 2 = _
  rw [cartTotal_eq_sum]

/-- Witness for C3 at the one-line milk cart: snapshot total 35 = 33 + 2. -/
theorem placeOrderRequest_total_witness :
    (([({ milk with quantity := 1 } : CartItem)] : List CartItem) ≠ []) ∧
    ((placeOrderRequest { id := 1, email := "a@b.com", name := "A" }
        [({ milk with quantity := 1 } : CartItem)]).total =
      cartTotal [({ milk with quantity := 1 } : CartItem)] + 2 ∧
     (placeOrderRequest { id := 1, email := "a@b.com", name := "A" }
        [({ milk with quantity := 1 } : CartItem)]).total =
      ([({ milk with quantity := 1 } : CartItem)].map
        (fun item => item.price * (item.quantity : Rat))).sum + 2) :=
  ⟨by decide,
   placeOrderRequest_total { id := 1, email := "a@b.com", name := "A" }
     [{ milk with quantity := 1 }] (by decide)⟩

/-- Result of the checkout fetch promise: rejected, or resolved with an HTTP
status code. -/
inductive FetchResult where
  | rejected
  | completed (status : Nat)
deriving DecidableEq, Repr

/-- `Response.ok`: the status is in the 2xx range. -/
def resOk (status : Nat) : Bool := 200 ≤ status && status ≤ 299

/-- handlePlaceOrder (lines 897-924) together with the onOrderSuccess callback
`() => setCart([])` (line 1329): no signed-in user → redirect to /auth, cart
kept; fetch rejected → the catch block only logs, cart kept; response ok →
cart cleared and navigate to /success; response not ok → nothing happens,
cart kept. Returns the resulting cart and whether /success was reached. -/
def handlePlaceOrder (cart : List CartItem) (user : Option UserData)
    (result : FetchResult) : List CartItem × Bool :=
  match user with
  | none => (cart, false)
  | some _ =>
      match result with
      | .rejected => (cart, false)
      | .completed status => if resOk status then ([], true) else (cart, false)

/-- The order service confirmed order creation: a user was signed in, the
fetch resolved, and the response status was 2xx. -/
def orderConfirmed (user : Option UserData) (result : FetchResult) : Bool :=
  match user, result with
  | some _, .completed status => resOk status
  | _, _ => false

/-- C4: the cart is cleared exactly when the order service confirms creation,
and on any failure (rejected fetch or non-2xx response) the cart is exactly
the one before checkout; navigation to the success view happens exactly on
confirmation. -/
theorem handlePlaceOrder_clears_iff_confirmed (cart : List CartItem)
    (user : Option UserData) (result : FetchResult) :
    (handlePlaceOrder cart user result).1 =
      (if orderConfirmed user result then [] else cart) ∧
    (handlePlaceOrder cart user result).2 = orderConfirmed user result := by
  cases user with
  | none => cases result <;> simp [handlePlaceOrder, orderConfirmed]
  | some u =>
      cases result with
      | rejected => simp [handlePlaceOrder, orderConfirmed]
      | completed status =>
          by_cases h : resOk status = true <;>
            simp [handlePlaceOrder, orderConfirmed, h]

/-! C9: product search/filter (App.tsx filteredProducts, lines 698-705). -/

/-- Initial-segment test on character lists: `leadMatch sub s` is true when
`sub` is an initial segment of `s`. -/
def leadMatch : List Char → List Char → Bool
  | [], _ => true
  | _ :: _, [] => false
  | c :: cs, d :: ds => c == d && leadMatch cs ds

/-- JS `String.prototype.includes` on character lists: `sub` occurs
contiguously inside `s`. -/
def strIncludes : List Char → List Char → Bool
  | [], sub => leadMatch sub []
  | c :: t, sub => leadMatch sub (c :: t) || strIncludes t sub

/-- JS `toLowerCase()`, as a character list. -/
def lowerStr (s : String) : List Char := s.data.map Char.toLower

/-- `matchesSearch` inside filteredProducts (lines 700-701): the lower-cased
query occurs in the lower-cased name or the lower-cased category. -/
def matchesSearch (p : Product) (searchQuery : String) : Bool :=
  strIncludes (lowerStr p.name) (lowerStr searchQuery) ||
  strIncludes (lowerStr p.category) (lowerStr searchQuery)

/-- `matchesCategory` inside filteredProducts (line 702): the active category
is the literal "All" or equals the product's category exactly. -/
def matchesCategory (p : Product) (activeCategory : String) : Bool :=
  activeCategory == "All" || p.category == activeCategory

/-- `filteredProducts` (lines 698-705). -/
def filteredProducts (products : List Product) (searchQuery activeCategory : String) :
    List Product :=
  products.filter (fun p => matchesSearch p searchQuery && matchesCategory p activeCategory)

/-- Spec-side reading of "contains the query case-insensitively": the
lower-cased query is a contiguous substring. -/
def specSubstring (sub s : List Char) : Prop := ∃ t u, s = t ++ sub ++ u

/-- Spec-side reading of the search/filter contract: name or category contains
the query case-insensitively, and the product passes the exact category filter
unless the active category is "All". -/
def specMatches (p : Product) (searchQuery activeCategory : String) : Prop :=
  (specSubstring (lowerStr searchQuery) (lowerStr p.name) ∨
    specSubstring (lowerStr searchQuery) (lowerStr p.category)) ∧
  (activeCategory = "All" ∨ p.category = activeCategory)

theorem leadMatch_iff (sub : List Char) :
    ∀ s : List Char, leadMatch sub s = true ↔ ∃ u, s = sub ++ u := by
  induction sub with
  | nil =>
      intro s
      simp [leadMatch]
  | cons c cs ih =>
      intro s
      cases s with
      | nil =>
          simp [leadMatch]
      | cons d ds =>
          rw [leadMatch]
          constructor
          · intro h
            obtain ⟨h1, h2⟩ := Bool.and_eq_true_iff.mp h
            obtain ⟨u, hu⟩ := (ih ds).mp h2
            refine ⟨u, ?_⟩
            have : c = d := by simpa using h1
            simp [this, hu]
          · rintro ⟨u, hu⟩
            simp only [List.cons_append, List.cons.injEq] at hu
            obtain ⟨rfl, hds⟩ := hu
            rw [Bool.and_eq_true_iff]
            exact ⟨by simp, (ih ds).mpr ⟨u, hds⟩⟩

theorem strIncludes_iff (sub : List Char) :
    ∀ s : List Char, strIncludes s sub = true ↔ specSubstring sub s := by
  intro s
  induction s with
  | nil =>
      rw [strIncludes, leadMatch_iff]
      unfold specSubstring
      constructor
      · rintro ⟨u, hu⟩
        have hsub : sub = [] := by
          cases sub with
          | nil => rfl
          | cons a t => simp at hu
        exact ⟨[], [], by simp [hsub, ← hu]⟩
      · rintro ⟨t, u, htu⟩
        have := htu.symm
        rw [List.append_eq_nil] at this
        obtain ⟨h1, h2⟩ := this
        rw [List.append_eq_nil] at h1
        exact ⟨[], by simp [h1.2]⟩
  | cons c cs ih =>
      rw [strIncludes, Bool.or_eq_true, leadMatch_iff, ih]
      unfold specSubstring
      constructor
      · rintro (⟨u, hu⟩ | ⟨t, u, htu⟩)
        · exact ⟨[], u, by simp [hu]⟩
        · exact ⟨c :: t, u, by simp [htu]⟩
      · rintro ⟨t, u, htu⟩
        cases t with
        | nil =>
            left
            exact ⟨u, by simpa using htu⟩
        | cons x t2 =>
            right
            simp only [List.cons_append, List.cons.injEq] at htu
            exact ⟨t2, u, htu.2⟩

theorem matchesSearch_iff (p : Product) (searchQuery : String) :
    matchesSearch p searchQuery = true ↔
      (specSubstring (lowerStr searchQuery) (lowerStr p.name) ∨
        specSubstring (lowerStr searchQuery) (lowerStr p.category)) := by
  unfold matchesSearch
  rw [Bool.or_eq_true, strIncludes_iff, strIncludes_iff]

theorem matchesCategory_iff (p : Product) (activeCategory : String) :
    matchesCategory p activeCategory = true ↔
      (activeCategory = "All" ∨ p.category = activeCategory) := by
  unfold matchesCategory
  rw [Bool.or_eq_true]
  simp

/-- C9: the search/filter is exactly the pure function described by the spec:
a product is in the result iff it is in the catalog, its name or category
contains the query case-insensitively, and it passes the exact category filter
("All" bypasses it); and when no product's name or category contains the
query, the result is empty. -/
theorem filteredProducts_spec (products : List Product)
    (searchQuery activeCategory : String) :
    (∀ p : Product, p ∈ filteredProducts products searchQuery activeCategory ↔
      p ∈ products ∧ specMatches p searchQuery activeCategory) ∧
    ((∀ p ∈ products, ¬ (specSubstring (lowerStr searchQuery) (lowerStr p.name) ∨
        specSubstring (lowerStr searchQuery) (lowerStr p.category))) →
      filteredProducts products searchQuery activeCategory = []) := by
  have hmem : ∀ p : Product, p ∈ filteredProducts products searchQuery activeCategory ↔
      p ∈ products ∧ specMatches p searchQuery activeCategory := by
    intro p
    unfold filteredProducts specMatches
    rw [List.mem_filter, Bool.and_eq_true, matchesSearch_iff, matchesCategory_iff]
  refine ⟨hmem, ?_⟩
  intro hnone
  unfold filteredProducts
  rw [List.filter_eq_nil_iff]
  intro p hp
  rw [Bool.and_eq_true, matchesSearch_iff, matchesCategory_iff]
  intro hand
  exact hnone p hp hand.1

/-- Witness for C9: the query "xyzzy" matches neither name nor category of the
milk and bread seed rows, and the filter returns the empty list. -/
theorem filteredProducts_spec_witness :
    filteredProducts [milk, bread] "xyzzy" "All" = [] :=
  (filteredProducts_spec [milk, bread] "xyzzy" "All").2 (by
    intro p hp
    simp only [← strIncludes_iff]
    fin_cases hp <;> decide)

/-! C5: POST /api/orders (server.ts lines 81-92). -/

/-- A row of the `orders` table: status defaults to "pending" (the INSERT
names only user_id and total). -/
structure OrderRow where
  id : Nat
  user_id : Nat
  total : Rat
  status : String
deriving DecidableEq, Repr

/-- A row of the `order_items` table. -/
structure OrderItemRow where
  id : Nat
  order_id : Nat
  product_id : Nat
  quantity : Int
  price : Rat
deriving DecidableEq, Repr

/-- The persistent store as seen by the order endpoint. -/
structure Store where
  orders : List OrderRow
  order_items : List OrderItemRow
deriving DecidableEq, Repr

/-- An element of the request's `items` array; the handler reads its id,
quantity and price fields. -/
structure OrderItemInput where
  id : Nat
  quantity : Int
  price : Rat
deriving DecidableEq, Repr

/-- The per-item insert loop of the handler. Each `insertItem.run` is its own
autocommitted statement; `failsAt = some k` models the k-th insert throwing
(a constraint or I/O error), which aborts `forEach` but leaves every earlier
row committed. Returns the store and whether the loop finished. -/
def insertOrderItems (store : Store) (orderId : Nat) :
    List OrderItemInput → Nat → Option Nat → Store × Bool
  | [], _, _ => (store, true)
  | item :: rest, k, failsAt =>
      if failsAt = some k then (store, false)
      else
        insertOrderItems
          { store with order_items := store.order_items ++
              [{ id := store.order_items.length + 1, order_id := orderId,
                 product_id := item.id, quantity := item.quantity,
                 price := item.price }] }
          orderId rest (k + 1) failsAt

/-- POST /api/orders: insert the order header (user_id defaulted to 1 when the
request carries none or 0, via `userId || 1`), take its rowid, then insert the
item rows one by one with no enclosing transaction. Returns the store and the
response (`some orderId` on success, `none` when an insert threw). -/
def createOrder (store : Store) (userId : Option Nat) (items : List OrderItemInput)
    (total : Rat) (failsAt : Option Nat) : Store × Option Nat :=
  let uid := match userId with
    | none => 1
    | some u => if u = 0 then 1 else u
  let orderId := store.orders.length + 1
  let store1 := { store with orders := store.orders ++
      [{ id := orderId, user_id := uid, total := total, status := "pending" }] }
  match insertOrderItems store1 orderId items 0 failsAt with
  | (store2, true) => (store2, some orderId)
  | (store2, false) => (store2, none)

/-- C5 failing input: with an empty store, a two-item order whose second item
insert throws leaves a committed "pending" order header with only one of its
two item rows — a partial order survives, so the operation is not atomic. -/
theorem createOrder_not_atomic :
    (createOrder ⟨[], []⟩ (some 1)
        [⟨1, 1, 33⟩, ⟨2, 1, 45⟩] 80 (some 1)).2 = none ∧
    ((createOrder ⟨[], []⟩ (some 1)
        [⟨1, 1, 33⟩, ⟨2, 1, 45⟩] 80 (some 1)).1.orders =
      [{ id := 1, user_id := 1, total := 80, status := "pending" }]) ∧
    ((createOrder ⟨[], []⟩ (some 1)
        [⟨1, 1, 33⟩, ⟨2, 1, 45⟩] 80 (some 1)).1.order_items.length = 1) := by
  refine ⟨rfl, ?_, rfl⟩
  show (⟨[{ id := 1, user_id := 1, total := 80, status := "pending" }],
    [{ id := 1, order_id := 1, product_id := 1, quantity := 1, price := 33 }]⟩ :
      Store).orders = _
  rfl

/-- On the success path (no insert throws), createOrder does persist exactly
one header row with status "pending" and one item row per input. -/
theorem createOrder_success_shape (store : Store) (userId : Option Nat)
    (items : List OrderItemInput) (total : Rat) :
    (createOrder store userId items total none).2 = some (store.orders.length + 1) ∧
    (createOrder store userId items total none).1.orders.length =
      store.orders.length + 1 ∧
    (createOrder store userId items total none).1.order_items.length =
      store.order_items.length + items.length := by
  have hloop : ∀ (its : List OrderItemInput) (st : Store) (oid k : Nat),
      insertOrderItems st oid its k none =
        ((insertOrderItems st oid its k none).1, true) ∧
      (insertOrderItems st oid its k none).1.orders = st.orders ∧
      (insertOrderItems st oid its k none).1.order_items.length =
        st.order_items.length + its.length := by
    intro its
    induction its with
    | nil =>
        intro st oid k
        simp [insertOrderItems]
    | cons item rest ih =>
        intro st oid k
        rw [insertOrderItems]
        simp only [reduceCtorEq, if_false, Option.some.injEq]
        obtain ⟨h1, h2, h3⟩ := ih _ oid (k + 1)
        refine ⟨?_, ?_, ?_⟩
        · rw [← h1]
        · rw [h2]
        · rw [h3]
          simp only [List.length_append, List.length_cons, List.length_nil]
          omega
  unfold createOrder
  dsimp only
  obtain ⟨h1, h2, h3⟩ := hloop items
    { store with orders := store.orders ++
        [{ id := store.orders.length + 1,
           user_id := match userId with
             | none => 1
             | some u => if u = 0 then 1 else u,
           total := total, status := "pending" }] }
    (store.orders.length + 1) 0
  rw [h1]
  dsimp only
  refine ⟨rfl, ?_, ?_⟩
  · rw [h2]
    simp
  · rw [h3]

/-! C6: POST /api/register (server.ts lines 100-113). -/

/-- A row of the `users` table; email carries a UNIQUE constraint. -/
structure UserRow where
  id : Nat
  email : String
  password : String
  name : String
deriving DecidableEq, Repr

/-- Response of POST /api/register: the inserted user (id, email, name) on
success, or the 400 duplicate-email failure when the INSERT hits the UNIQUE
constraint on email. -/
inductive RegisterResult where
  | success (id : Nat) (email : String) (name : String)
  | duplicateEmail
deriving DecidableEq, Repr

/-- POST /api/register: the INSERT throws "UNIQUE constraint failed" exactly
when a row with the same email already exists, which the handler maps to the
400 duplicate-email response leaving the table unchanged; otherwise the row is
inserted and echoed back. -/
def registerUser (users : List UserRow) (email password name : String) :
    List UserRow × RegisterResult :=
  if users.any (fun u => u.email == email) then
    (users, .duplicateEmail)
  else
    let id := users.length + 1
    (users ++ [{ id := id, email := email, password := password, name := name }],
     .success id email name)

/-- C6: registering a fresh email succeeds; registering the same email again
fails with the duplicate-email condition, leaves the table unchanged, and the
table holds exactly one row with that email. -/
theorem registerUser_duplicate (users : List UserRow)
    (email p1 n1 p2 n2 : String) (h : ∀ u ∈ users, u.email ≠ email) :
    (registerUser users email p1 n1).2 = .success (users.length + 1) email n1 ∧
    (registerUser (registerUser users email p1 n1).1 email p2 n2).2 =
      .duplicateEmail ∧
    (registerUser (registerUser users email p1 n1).1 email p2 n2).1 =
      (registerUser users email p1 n1).1 ∧
    ((registerUser (registerUser users email p1 n1).1 email p2 n2).1.filter
      (fun u => u.email == email)).length = 1 := by
  have hany : users.any (fun u => u.email == email) = false := by
    rw [List.any_eq_false]
    intro u hu
    simpa using h u hu
  have h1 : registerUser users email p1 n1 =
      (users ++ [{ id := users.length + 1, email := email, password := p1, name := n1 }],
       .success (users.length + 1) email n1) := by
    unfold registerUser
    rw [hany]
    simp
  have hany2 : (users ++
      [({ id := users.length + 1, email := email, password := p1, name := n1 } :
        UserRow)]).any (fun u => u.email == email) = true := by
    rw [List.any_eq_true]
    exact ⟨_, List.mem_append_right _ (List.mem_singleton.mpr rfl), by simp⟩
  have h2 : registerUser (users ++
      [({ id := users.length + 1, email := email, password := p1, name := n1 } :
        UserRow)]) email p2 n2 =
      (users ++ [{ id := users.length + 1, email := email, password := p1, name := n1 }],
       .duplicateEmail) := by
    unfold registerUser
    rw [hany2]
    simp
  have hfl : users.filter (fun u => u.email == email) = [] := by
    rw [List.filter_eq_nil_iff]
    intro u hu
    simpa using h u hu
  rw [h1]
  dsimp only
  rw [h2]
  dsimp only
  refine ⟨rfl, rfl, rfl, ?_⟩
  rw [List.filter_append, hfl]
  simp

/-- Witness for C6: registering a@b.com twice on the empty table. -/
theorem registerUser_duplicate_witness :
    (∀ u ∈ ([] : List UserRow), u.email ≠ "a@b.com") ∧
    ((registerUser [] "a@b.com" "pw1" "Alice").2 =
      .success 1 "a@b.com" "Alice" ∧
    (registerUser (registerUser [] "a@b.com" "pw1" "Alice").1
        "a@b.com" "pw2" "Bob").2 = .duplicateEmail ∧
    (registerUser (registerUser [] "a@b.com" "pw1" "Alice").1
        "a@b.com" "pw2" "Bob").1 = (registerUser [] "a@b.com" "pw1" "Alice").1 ∧
    ((registerUser (registerUser [] "a@b.com" "pw1" "Alice").1
        "a@b.com" "pw2" "Bob").1.filter (fun u => u.email == "a@b.com")).length = 1) :=
  ⟨by decide,
   registerUser_duplicate [] "a@b.com" "pw1" "Alice" "pw2" "Bob" (by decide)⟩

end Quickcart
